import Mathlib

/-!
Verification of the user/admin data model repository: a `User`/`Admin`
entity pair (`models.py`), a thin service layer (`service.py`) and two
stateless text utilities (`utils.py`). Text is modelled as `List Char`,
Python integers as `Int`, and Python slice semantics (`name[:k]`,
including a negative bound counting from the end) are embedded
explicitly. Duck typing at `get_greeting` is modelled by a small dynamic
value type together with an `Except`-valued call.
-/

namespace RoamCode

/-! ## utils.py -/

/-- `MAX_NAME_LENGTH = 100` (module-level constant in `utils.py`). -/
def MAX_NAME_LENGTH : Int := 100

/-- `validate_email(email)`: `return "@" in email and "." in email`.
Python's `in` on strings is substring containment, embedded as
`List.IsInfix` on the character lists. -/
def validate_email (email : List Char) : Bool :=
  decide ("@".toList <:+: email) && decide (".".toList <:+: email)

/-- Python's prefix slice `name[:k]` for an arbitrary integer bound `k`:
for `0 ≤ k` the first `k` characters (all of them when `k` exceeds the
length); for `k < 0` the bound counts from the end, i.e. the first
`len(name) + k` characters, clamped at zero. -/
def pySliceTo (name : List Char) (k : Int) : List Char :=
  if 0 ≤ k then name.take k.toNat
  else name.take ((name.length : Int) + k).toNat

/-- `truncate_name(name, max_length=MAX_NAME_LENGTH)`:
`if len(name) > max_length: return name[:max_length]` else `return name`. -/
def truncate_name (name : List Char) (max_length : Int := MAX_NAME_LENGTH) :
    List Char :=
  if (name.length : Int) > max_length then pySliceTo name max_length
  else name

/-! ## models.py -/

/-- `class User`: `__init__` stores `name` and `email` verbatim. -/
structure User where
  name : List Char
  email : List Char

/-- `User.__init__(self, name, email)`: stores both fields verbatim. -/
def User.init (name email : List Char) : User :=
  { name := name, email := email }

/-- `User.greet(self)`: `return f"Hello, {self.name}!"`. -/
def User.greet (u : User) : List Char :=
  "Hello, ".toList ++ u.name ++ "!".toList

/-- `class Admin(User)`: adds an integer `level` to the inherited
`User` fields. -/
structure Admin extends User where
  level : Int

/-- `Admin.role = "admin"`: class-level constant shared by the type,
not stored per instance. -/
def Admin.role : List Char := "admin".toList

/-- `Admin.__init__(self, name, email, level=1)`: calls
`super().__init__(name, email)` then stores `level`. -/
def Admin.init (name email : List Char) (level : Int := 1) : Admin :=
  { toUser := User.init name email, level := level }

/-- `Admin.promote(self)`: `self.level += 1`. -/
def Admin.promote (a : Admin) : Admin :=
  { a with level := a.level + 1 }

/-- `Admin` inherits `greet` unchanged from `User`: calling `greet` on
an admin runs `User.greet` on its user part. -/
def Admin.greet (a : Admin) : List Char :=
  a.toUser.greet

/-! ## service.py -/

/-- `create_user(name, email)`: `return User(name, email)`. -/
def create_user (name email : List Char) : User :=
  User.init name email

/-- `create_admin(name, email, level=1)`: `return Admin(name, email, level)`. -/
def create_admin (name email : List Char) (level : Int := 1) : Admin :=
  Admin.init name email level

/-- `get_greeting(user)`: `return user.greet()` on a statically typed
greeter. The class `CanGreet` is the "can greet" capability; `User` and
`Admin` both expose it. -/
class CanGreet (α : Type) where
  greet : α → List Char

instance : CanGreet User := ⟨User.greet⟩

instance : CanGreet Admin := ⟨Admin.greet⟩

/-- `get_greeting(user)`: `return user.greet()`. -/
def get_greeting {α : Type} [CanGreet α] (u : α) : List Char :=
  CanGreet.greet u

/-! ## Dynamic (duck-typed) view, for the error-handling claim

Python resolves `user.greet()` at call time; passing an object without a
`greet` attribute raises `AttributeError`. `PyVal` enumerates the kinds
of values the program manipulates, and the `_dyn`/`_run` functions are
the `Except`-level embedding of the calls: an `.error` is a raised
exception, an `.ok` a normal return. -/

/-- A dynamic value: the entities of the program plus non-greeter data. -/
inductive PyVal where
  | user (u : User)
  | admin (a : Admin)
  | strVal (s : List Char)
  | intVal (n : Int)
  | noneVal

/-- The one observable error of the program: the missing-capability
(`AttributeError`) raised when `greet` is absent. -/
inductive PyErr where
  | missingCapability
deriving DecidableEq

/-- Whether a dynamic value exposes the greeting capability. -/
def hasGreet : PyVal → Bool
  | .user _ => true
  | .admin _ => true
  | _ => false

/-- `get_greeting(user)` under duck typing: `user.greet()` succeeds on
values exposing `greet` and raises the missing-capability error on the
rest. -/
def get_greeting_dyn : PyVal → Except PyErr (List Char)
  | .user u => .ok u.greet
  | .admin a => .ok a.greet
  | _ => .error .missingCapability

/-- `validate_email` at the `Except` level: its body (two substring
tests and a boolean `and`) has no raising operation on text input, so
the call always returns normally. -/
def validate_email_run (email : List Char) : Except PyErr Bool :=
  .ok (validate_email email)

/-- `truncate_name` at the `Except` level: its body (a length test and
a slice) has no raising operation, so the call always returns normally. -/
def truncate_name_run (name : List Char) (max_length : Int := MAX_NAME_LENGTH) :
    Except PyErr (List Char) :=
  .ok (truncate_name name max_length)

/-! ## Reachable admin states

The defined operations on a constructed `Admin` are `promote` (the only
mutator) and the inherited, pure `greet`. A state reachable from a
construction is the fold of a list of such operations. -/

/-- An operation a caller may invoke on an `Admin`. -/
inductive AdminOp where
  | promote
  | greet

/-- The state after one operation: `promote` mutates `level`; `greet`
is pure and leaves the state unchanged. -/
def applyOp (a : Admin) : AdminOp → Admin
  | .promote => a.promote
  | .greet => a

/-- The state after a sequence of operations. -/
def applyOps (a : Admin) (ops : List AdminOp) : Admin :=
  ops.foldl applyOp a

/-- `level` never decreases along any operation sequence. -/
theorem level_le_applyOps (a : Admin) (ops : List AdminOp) :
    a.level ≤ (applyOps a ops).level := by
  induction ops generalizing a with
  | nil => exact le_refl _
  | cons op ops ih =>
    refine le_trans ?_ (ih (applyOp a op))
    cases op with
    | promote => exact le_of_lt (by simp [applyOp, Admin.promote])
    | greet => exact le_refl _

/-! ## Claim theorems -/

/-- C1: `validate_email(email)` returns true iff `email` contains `"@"`
as a substring and `"."` as a substring, anywhere and in any order; in
particular it accepts `"a@b.com"`, `"a.b@c"` and `"@."` and rejects
`"abc"`. -/
theorem validate_email_spec :
    (∀ email : List Char,
      validate_email email = true ↔
        ("@".toList <:+: email ∧ ".".toList <:+: email))
    ∧ validate_email "a@b.com".toList = true
    ∧ validate_email "abc".toList = false
    ∧ validate_email "a.b@c".toList = true
    ∧ validate_email "@.".toList = true := by
  refine ⟨fun email => ?_, by decide, by decide, by decide, by decide⟩
  simp [validate_email]

/-- C2: for a natural bound, `truncate_name(name, k)` returns the first
`k` characters when `len(name) > k` and `name` unchanged otherwise; the
default bound is `MAX_NAME_LENGTH = 100`, under which a 100-character
input is unchanged and a 101-character input yields its first 100
characters. -/
theorem truncate_name_spec :
    (∀ (name : List Char) (k : Nat),
        truncate_name name (k : Int) =
          if k < name.length then name.take k else name)
    ∧ MAX_NAME_LENGTH = 100
    ∧ (∀ x : List Char, x.length = 100 → truncate_name x = x)
    ∧ (∀ x : List Char, x.length = 101 → truncate_name x = x.take 100) := by
  refine ⟨fun name k => ?_, rfl, fun x hx => ?_, fun x hx => ?_⟩
  · unfold truncate_name pySliceTo
    by_cases h : k < name.length
    · rw [if_pos (by exact_mod_cast h), if_pos (Int.natCast_nonneg k),
        Int.toNat_natCast, if_pos h]
    · rw [if_neg (by exact_mod_cast h), if_neg h]
  · simp [truncate_name, MAX_NAME_LENGTH, hx]
  · simp [truncate_name, pySliceTo, MAX_NAME_LENGTH, hx]

/-- C3: the greeting of a `User` constructed from `(name, email)` is
exactly `"Hello, " ++ name ++ "!"`, with no error conditions. -/
theorem user_greet_spec :
    ∀ (name email : List Char),
      (User.init name email).greet = "Hello, ".toList ++ name ++ "!".toList :=
  fun _ _ => rfl

/-- C4: `promote()` sets `level` to the previous `level` plus exactly 1,
for any starting integer level. -/
theorem promote_spec :
    ∀ a : Admin, (a.promote).level = a.level + 1 :=
  fun _ => rfl

/-- C5: `get_greeting` returns its argument's own greeting for both
`User` and `Admin`; `Admin` inherits `greet` unchanged from `User`, so
`get_greeting(create_admin(name, email, level))` is
`"Hello, " ++ name ++ "!"`. -/
theorem get_greeting_spec :
    (∀ u : User, get_greeting u = u.greet)
    ∧ (∀ a : Admin, get_greeting a = a.greet)
    ∧ (∀ a : Admin, a.greet = a.toUser.greet)
    ∧ (∀ (name email : List Char) (level : Int),
        get_greeting (create_admin name email level) =
          "Hello, ".toList ++ name ++ "!".toList) :=
  ⟨fun _ => rfl, fun _ => rfl, fun _ => rfl, fun _ _ _ => rfl⟩

/-- C6: admin construction stores `name`/`email` via `User`'s
construction and `level` verbatim; `create_admin("A", "a@b.com")`
without a level argument yields `level = 1`. -/
theorem create_admin_spec :
    (∀ (name email : List Char) (level : Int),
        (create_admin name email level).toUser = User.init name email
        ∧ (create_admin name email level).level = level)
    ∧ (create_admin "A".toList "a@b.com".toList).level = 1 :=
  ⟨fun _ _ _ => ⟨rfl, rfl⟩, rfl⟩

/-- C7: along every sequence of defined operations, an admin's `level`
never decreases; `promote` (the only operation that changes `level`)
strictly increases it, and `greet` leaves the state unchanged. -/
theorem admin_level_invariant :
    (∀ (a : Admin) (ops : List AdminOp), a.level ≤ (applyOps a ops).level)
    ∧ (∀ a : Admin, a.level < (applyOp a AdminOp.promote).level)
    ∧ (∀ a : Admin, applyOp a AdminOp.greet = a) :=
  ⟨level_le_applyOps,
   fun a => by simp [applyOp, Admin.promote],
   fun _ => rfl⟩

/-- C8: under the dynamic view, `get_greeting` fails exactly on values
lacking the greeting capability, its only error is the
missing-capability error, and the utility calls always return
normally. -/
theorem error_mode_spec :
    (∀ v : PyVal, (∃ e, get_greeting_dyn v = .error e) ↔ hasGreet v = false)
    ∧ (∀ (v : PyVal) (e : PyErr),
        get_greeting_dyn v = .error e → e = PyErr.missingCapability)
    ∧ (∀ email : List Char, validate_email_run email = .ok (validate_email email))
    ∧ (∀ (name : List Char) (k : Int),
        truncate_name_run name k = .ok (truncate_name name k)) := by
  refine ⟨fun v => ?_, fun v e _ => by cases e; rfl, fun _ => rfl, fun _ _ => rfl⟩
  cases v <;> simp [get_greeting_dyn, hasGreet] <;>
    exact ⟨PyErr.missingCapability, trivial⟩

/-- C9: `promote` modifies only `level`: the inherited user part (its
`name` and `email`) is unchanged, and `role` is the fixed value
`"admin"`. -/
theorem promote_frame_spec :
    ∀ a : Admin,
      (a.promote).toUser = a.toUser
      ∧ (a.promote).toUser.name = a.toUser.name
      ∧ (a.promote).toUser.email = a.toUser.email
      ∧ Admin.role = "admin".toList :=
  fun _ => ⟨rfl, rfl, rfl, rfl⟩

/-- C10: `truncate_name` is idempotent for every nonnegative bound, and
the nonnegativity hypothesis is required: a negative Python slice bound
removes trailing characters, and idempotence fails there. -/
theorem truncate_name_idem :
    (∀ (name : List Char) (k : Int), 0 ≤ k →
        truncate_name (truncate_name name k) k = truncate_name name k)
    ∧ (∃ (name : List Char) (k : Int), k < 0 ∧
        truncate_name (truncate_name name k) k ≠ truncate_name name k) := by
  constructor
  · intro name k hk
    unfold truncate_name
    by_cases h : (name.length : Int) > k
    · rw [if_pos h]
      have hlen : (pySliceTo name k).length = k.toNat := by
        simp only [pySliceTo, if_pos hk, List.length_take]
        omega
      rw [hlen, if_neg (by omega)]
    · rw [if_neg h, if_neg h]
  · exact ⟨['a', 'b'], -1, by decide, by decide⟩

end RoamCode
